import Mathlib

set_option linter.unusedVariables false

/-!
Verification of the order attribute-group subsystem of nPlatform
(`src/app/admin/orders/[page]/attribute_group.tsx`).

The component keeps a document `AttributeGroup[]` in React state
(`groupSelected`), a last-saved baseline (`savedGroupData`), and an active
group id (`activeGroupId`).  Edits go through immer `produce` handlers; the
dirty flag (`hasChanges`) compares `JSON.stringify` of current and baseline;
`saveAttributeMeta` persists the serialized document and re-baselines on
success.  Loading parses the persisted text blob and migrates a legacy flat
shape into a single "Default Group".

The embedding below translates those handlers into pure functions over an
explicit state.  JavaScript's `JSON.parse` / `JSON.stringify` string layer is
modelled by a `Json` value tree: `JSON.parse` of the persisted blob is an
`Option Json` (with `none` for a parse failure), and serialization of the
typed document is a concrete string builder mirroring `JSON.stringify`'s
output (no spaces, keys in object-literal insertion order, strings escaped).
-/

namespace NPlatform

/-! ## Generic list helpers (JS `find` + in-place mutation, `splice`) -/

/-- Mutating the first element satisfying `p` (immer `draft.find(...)` followed
by mutation of the found element). -/
def modifyFirst {α : Type} (p : α → Bool) (f : α → α) : List α → List α
  | [] => []
  | x :: xs => if p x then f x :: xs else x :: modifyFirst p f xs

/-- Like `modifyFirst`, but the mutation also emits an optional out-of-band
message (a `toast` call made while holding the found draft element). -/
def mapFirstWith {α β : Type} (p : α → Bool) (f : α → α × Option β) :
    List α → List α × Option β
  | [] => ([], none)
  | x :: xs =>
    if p x then ((f x).1 :: xs, (f x).2)
    else
      let r := mapFirstWith p f xs
      (x :: r.1, r.2)

/-- `findIndex` + `splice(index, 1)`: remove the first element satisfying `p`
(no-op when absent). -/
def eraseFirst {α : Type} (p : α → Bool) : List α → List α
  | [] => []
  | x :: xs => if p x then xs else x :: eraseFirst p xs

/-- `Array.prototype.splice(n, 0, x)`: insert `x` at position `n` (JS splice
clamps an out-of-range index to the end). -/
def insertAt {α : Type} : Nat → α → List α → List α
  | 0, x, l => x :: l
  | _ + 1, x, [] => [x]
  | n + 1, x, y :: l => y :: insertAt n x l

/-- No two elements of the list share the same `key` string. -/
def nodupKeys {α : Type} (key : α → String) : List α → Bool
  | [] => true
  | x :: xs => !(xs.any (fun y => key y == key x)) && nodupKeys key xs

/-! ## Data model (the TS interfaces of the component) -/

/-- An attribute-metadata value record bound into a field: the object
`{id: item.id, title: item.key, value: item.value}` built when a search
result is selected. -/
structure MetaItem where
  id : String
  title : String
  value : String
deriving DecidableEq, Repr

/-- A field's polymorphic `value`: empty/edited string (text), a bound
metadata object (select), or an array of metadata objects (checkbox). -/
inductive Value where
  | str : String → Value
  | obj : MetaItem → Value
  | arr : List MetaItem → Value
deriving DecidableEq, Repr

/-- `AttributeItem` of the source: one field of one row. -/
structure AttributeItem where
  id : String
  title : String
  value : Value
deriving DecidableEq, Repr

/-- A row is an array of attribute items. -/
abbrev Row := List AttributeItem

/-- `AttributeInstance` of the source: one template bound into a group,
holding rows. -/
structure AttributeInstance where
  id : String
  title : String
  children : List Row
deriving DecidableEq, Repr

/-- `AttributeGroup` of the source. -/
structure AttributeGroup where
  id : String
  title : String
  attributes : List AttributeInstance
deriving DecidableEq, Repr

/-- A document snapshot: the persisted `AttributeGroup[]`. -/
abbrev Doc := List AttributeGroup

/-- A child field definition of an attribute template (external catalog):
`{id, title, type}` with `type` in text / select / checkbox. -/
structure FieldDef where
  id : String
  title : String
  type : String
deriving DecidableEq, Repr

/-- An attribute template from the external catalog (`atts`). -/
structure AttrTemplate where
  id : String
  title : String
  children : List FieldDef
deriving DecidableEq, Repr

/-- A user-visible transient message (`toast.info` / `toast.error` /
`toast.success`). -/
inductive Notice where
  | info : String → Notice
  | error : String → Notice
  | success : String → Notice
deriving DecidableEq, Repr

/-! ## Serialization (`JSON.stringify` of the typed document)

Object keys appear in the insertion order of the source's object literals:
groups `{id, title, attributes}`, instances `{title, id, children}` (the
literal at the `handleSelectAttributeForGroup` site), items and bound
metadata objects `{id, title, value}`. -/

/-- One hexadecimal digit (lower case). -/
def hexDigit (n : Nat) : Char :=
  if n < 10 then Char.ofNat (48 + n) else Char.ofNat (87 + n)

/-- `JSON.stringify` escaping of a single character. -/
def escapeJsonChar (c : Char) : String :=
  if c = '"' then "\\\""
  else if c = '\\' then "\\\\"
  else if c = '\n' then "\\n"
  else if c = '\r' then "\\r"
  else if c = '\t' then "\\t"
  else if c.toNat < 32 then
    "\\u00" ++ String.singleton (hexDigit (c.toNat / 16)) ++
      String.singleton (hexDigit (c.toNat % 16))
  else String.singleton c

/-- A JSON string literal with escaping. -/
def quoteJson (s : String) : String :=
  "\"" ++ String.join (s.toList.map escapeJsonChar) ++ "\""

/-- Serialize a bound metadata object. -/
def stringifyMeta (m : MetaItem) : String :=
  "\x7b\"id\":" ++ quoteJson m.id ++ ",\"title\":" ++ quoteJson m.title ++
    ",\"value\":" ++ quoteJson m.value ++ "\x7d"

/-- Serialize a field value. -/
def stringifyValue : Value → String
  | .str s => quoteJson s
  | .obj m => stringifyMeta m
  | .arr l => "[" ++ String.intercalate "," (l.map stringifyMeta) ++ "]"

/-- Serialize one field. -/
def stringifyItem (it : AttributeItem) : String :=
  "\x7b\"id\":" ++ quoteJson it.id ++ ",\"title\":" ++ quoteJson it.title ++
    ",\"value\":" ++ stringifyValue it.value ++ "\x7d"

/-- Serialize one row. -/
def stringifyRow (r : Row) : String :=
  "[" ++ String.intercalate "," (r.map stringifyItem) ++ "]"

/-- Serialize one attribute instance. -/
def stringifyInstance (a : AttributeInstance) : String :=
  "\x7b\"title\":" ++ quoteJson a.title ++ ",\"id\":" ++ quoteJson a.id ++
    ",\"children\":[" ++ String.intercalate "," (a.children.map stringifyRow) ++
    "]\x7d"

/-- Serialize one group. -/
def stringifyGroup (g : AttributeGroup) : String :=
  "\x7b\"id\":" ++ quoteJson g.id ++ ",\"title\":" ++ quoteJson g.title ++
    ",\"attributes\":[" ++
    String.intercalate "," (g.attributes.map stringifyInstance) ++ "]\x7d"

/-- `JSON.stringify(document)`. -/
def stringifyDoc (d : Doc) : String :=
  "[" ++ String.intercalate "," (d.map stringifyGroup) ++ "]"

/-! ## Dirty-tracking and the save protocol -/

/-- The `hasChanges` memo: textual inequality of the serialized current and
saved snapshots.  (The `Array.isArray` guards of the source are vacuous here:
a typed `Doc` is always an array.) -/
def hasChanges (current saved : Doc) : Bool :=
  stringifyDoc current != stringifyDoc saved

/-- The two state cells relevant to the save protocol. -/
structure SaveState where
  groupSelected : Doc
  savedGroupData : Doc
deriving DecidableEq, Repr

/-- Outcome of the `actions.updateRecord` network call: the promise either
rejects (`thrown`) or resolves with a response whose `success` field is the
given string. -/
inductive SaveOutcome where
  | thrown : SaveOutcome
  | response : String → SaveOutcome
deriving DecidableEq, Repr

/-- `saveAttributeMeta`: gate on `hasChanges`, require a host id, send
`JSON.stringify(groupSelected)`, and on a `"success"` response re-baseline to
the exact in-memory snapshot.  Returns the new state together with the
payload actually handed to the network call (`none` when the call was never
issued). -/
def saveAttributeMeta (st : SaveState) (orderId : Option String)
    (outcome : SaveOutcome) : SaveState × Option String :=
  if !(hasChanges st.groupSelected st.savedGroupData) then (st, none)
  else
    match orderId with
    | none => (st, none)
    | some _ =>
      let orderData := stringifyDoc st.groupSelected
      match outcome with
      | .thrown => (st, some orderData)
      | .response s =>
        if s == "success" then
          ({ st with savedGroupData := st.groupSelected }, some orderData)
        else (st, some orderData)

/-! ## JSON value trees (the result of `JSON.parse`)

The string ↔ value correspondence of the JavaScript runtime is the external
JSON library; the persisted blob is modelled by its parse result.  Numbers
are idealized as integers (the subsystem stores only strings, objects and
arrays). -/

/-- A JSON value. -/
inductive Json where
  | null : Json
  | bool : Bool → Json
  | num : Int → Json
  | str : String → Json
  | arr : List Json → Json
  | obj : List (String × Json) → Json

/-- JS property access `j.k` on a parsed value: defined (non-`undefined`)
exactly when `j` is an object with key `k`. -/
def jlookup (k : String) : Json → Option Json
  | .obj kvs => (kvs.find? (fun kv => kv.1 == k)).map (fun kv => kv.2)
  | _ => none

/-- `Array.isArray`. -/
def jsonIsArray : Json → Bool
  | .arr _ => true
  | _ => false

/-- `.length` of a parsed array (0 otherwise; only consulted after an
`Array.isArray` guard). -/
def jsonLength : Json → Nat
  | .arr l => l.length
  | _ => 0

/-- `parsedData[0]?.attributes !== undefined`: the first element exists, is an
object, and has an `attributes` key. -/
def jsonFirstHasAttributes : Json → Bool
  | .arr (x :: _) => (jlookup "attributes" x).isSome
  | _ => false

/-! ## Encoding the typed model as JSON values -/

/-- Encode a bound metadata object. -/
def encodeMeta (m : MetaItem) : Json :=
  .obj [("id", .str m.id), ("title", .str m.title), ("value", .str m.value)]

/-- Encode a field value. -/
def encodeValue : Value → Json
  | .str s => .str s
  | .obj m => encodeMeta m
  | .arr l => .arr (l.map encodeMeta)

/-- Encode one field. -/
def encodeItem (it : AttributeItem) : Json :=
  .obj [("id", .str it.id), ("title", .str it.title),
    ("value", encodeValue it.value)]

/-- Encode one row. -/
def encodeRow (r : Row) : Json :=
  .arr (r.map encodeItem)

/-- Encode one attribute instance. -/
def encodeInstance (a : AttributeInstance) : Json :=
  .obj [("title", .str a.title), ("id", .str a.id),
    ("children", .arr (a.children.map encodeRow))]

/-- Encode one group. -/
def encodeGroup (g : AttributeGroup) : Json :=
  .obj [("id", .str g.id), ("title", .str g.title),
    ("attributes", .arr (g.attributes.map encodeInstance))]

/-- Encode a document. -/
def encodeDoc (d : Doc) : Json :=
  .arr (d.map encodeGroup)

/-! ## Decoding JSON values back into the typed model

JavaScript uses parsed values directly (duck typing); the decoder is the
typed-layer adapter inverting `encode*`, failing on any other shape. -/

/-- `Option`-valued `mapM` by structural recursion. -/
def mapMOpt {α β : Type} (f : α → Option β) : List α → Option (List β)
  | [] => some []
  | x :: xs =>
    match f x, mapMOpt f xs with
    | some y, some ys => some (y :: ys)
    | _, _ => none

/-- Decode a bound metadata object. -/
def decodeMeta (j : Json) : Option MetaItem :=
  match jlookup "id" j, jlookup "title" j, jlookup "value" j with
  | some (.str i), some (.str t), some (.str v) => some ⟨i, t, v⟩
  | _, _, _ => none

/-- Decode a field value. -/
def decodeValue : Json → Option Value
  | .str s => some (.str s)
  | .arr l => (mapMOpt decodeMeta l).map .arr
  | .obj kvs => (decodeMeta (.obj kvs)).map .obj
  | _ => none

/-- Decode one field. -/
def decodeItem (j : Json) : Option AttributeItem :=
  match jlookup "id" j, jlookup "title" j, jlookup "value" j with
  | some (.str i), some (.str t), some v =>
    (decodeValue v).map (fun w => ⟨i, t, w⟩)
  | _, _, _ => none

/-- Decode one row. -/
def decodeRow : Json → Option Row
  | .arr l => mapMOpt decodeItem l
  | _ => none

/-- Decode one attribute instance. -/
def decodeInstance (j : Json) : Option AttributeInstance :=
  match jlookup "id" j, jlookup "title" j, jlookup "children" j with
  | some (.str i), some (.str t), some (.arr cs) =>
    (mapMOpt decodeRow cs).map (fun rs => ⟨i, t, rs⟩)
  | _, _, _ => none

/-- Decode one group. -/
def decodeGroup (j : Json) : Option AttributeGroup :=
  match jlookup "id" j, jlookup "title" j, jlookup "attributes" j with
  | some (.str i), some (.str t), some (.arr as) =>
    (mapMOpt decodeInstance as).map (fun xs => ⟨i, t, xs⟩)
  | _, _, _ => none

/-- Decode a document. -/
def decodeDoc : Json → Option Doc
  | .arr l => mapMOpt decodeGroup l
  | _ => none

/-! ## Load-time parse / legacy migration (Effect 1 of the component) -/

/-- Input to the load effect: `none` when `data?.data` is absent or empty
(falsy, so `JSON.parse` is never called); `some none` when the blob is
present but `JSON.parse` throws; `some (some j)` when it parses to `j`. -/
abbrev RawBlob := Option (Option Json)

/-- The parse/migration effect.  `gen` is the value `generateId()` would
produce for the synthesized legacy group.  Returns the JSON value assigned to
`parsedGroups` (used as-is by the component) together with a flag recording
whether the "Failed to load order attributes." error toast fired. -/
def migrateOrderData (input : RawBlob) (gen : String) : Json × Bool :=
  match input with
  | none => (Json.arr [], false)
  | some none => (Json.arr [], true)
  | some (some parsedData) =>
    if jsonIsArray parsedData && jsonLength parsedData > 0 &&
        jsonFirstHasAttributes parsedData then
      (parsedData, false)
    else if jsonIsArray parsedData && jsonLength parsedData > 0 &&
        !(jsonFirstHasAttributes parsedData) then
      (Json.arr [Json.obj [("id", Json.str gen),
        ("title", Json.str "Default Group"), ("attributes", parsedData)]],
        false)
    else (Json.arr [], false)

/-! ## Edit Engine handlers -/

/-- The deep copy `JSON.parse(JSON.stringify(row))` of
`handleDuplicateAttributeRow`, modelled as the JSON round trip of the row
(total on well-typed rows; the `getD` fallback is unreachable). -/
def deepCopyRow (r : Row) : Row :=
  (decodeRow (encodeRow r)).getD r

/-- `handleAddGroup`: reject a blank (all-whitespace) name with an error
toast; otherwise append a fresh group and activate it.  `gen` is the
`generateId()` result.  Returns (document, active group id, notice). -/
def handleAddGroup (doc : Doc) (active : Option String) (groupName : String)
    (gen : String) : Doc × Option String × Option Notice :=
  if groupName.trim == "" then
    (doc, active, some (.error "Group name cannot be empty."))
  else
    (doc ++ [⟨gen, groupName.trim, []⟩], some gen, none)

/-- The group-rename prompt handler (double click on a tab): a falsy (empty)
prompt result is ignored, otherwise the group's title is set to the trimmed
name. -/
def handleRenameGroup (doc : Doc) (gid : String) (newName : String) : Doc :=
  if newName == "" then doc
  else modifyFirst (fun g => g.id == gid) (fun g => { g with title := newName.trim }) doc

/-- The per-group body of `handleSelectAttributeForGroup`: append
`{title, id, children: []}` built from the template unless an instance with
that id is already present, in which case nothing changes and an info toast
fires. -/
def selectAttrGroupBody (attDef : AttrTemplate) (g : AttributeGroup) :
    AttributeGroup × Option Notice :=
  if !(g.attributes.any (fun attr => attr.id == attDef.id)) then
    ({ g with attributes := g.attributes ++ [⟨attDef.id, attDef.title, []⟩] }, none)
  else
    (g, some (.info ("Attribute \"" ++ attDef.title ++
      "\" already added to this group.")))

/-- `handleSelectAttributeForGroup`. -/
def handleSelectAttributeForGroup (doc : Doc) (active : Option String)
    (attDef : AttrTemplate) : Doc × Option Notice :=
  match active with
  | none => (doc, none)
  | some gid =>
    mapFirstWith (fun g => g.id == gid) (selectAttrGroupBody attDef) doc

/-- `handleAddAttributeRow`: build a fresh row from the template's field
definitions (checkbox fields seeded with `[]`, others with `""`) and append
it to the addressed instance's rows. -/
def handleAddAttributeRow (doc : Doc) (active : Option String)
    (atts : List AttrTemplate) (attributeId : String) : Doc × Option Notice :=
  match active with
  | none => (doc, none)
  | some gid =>
    match atts.find? (fun att => att.id == attributeId) with
    | none => (doc, some (.error "Attribute definition not found or has no fields."))
    | some attDef =>
      let newRow : Row := attDef.children.map (fun c =>
        ⟨c.id, c.title, if c.type == "checkbox" then .arr [] else .str ""⟩)
      (modifyFirst (fun g => g.id == gid)
        (fun g => { g with attributes :=
          (modifyFirst (fun attr => attr.id == attributeId)
            (fun inst => { inst with children := inst.children ++ [newRow] })
            g.attributes) })
        doc, none)

/-- The per-instance body of `handleDuplicateAttributeRow`: when the row
exists, deep-copy it and splice the copy in immediately below the
original. -/
def dupRowInst (rowIndex : Nat) (inst : AttributeInstance) : AttributeInstance :=
  match inst.children.get? rowIndex with
  | none => inst
  | some row =>
    { inst with children :=
      (insertAt (rowIndex + 1) (deepCopyRow row) inst.children) }

/-- The per-group body of `handleDuplicateAttributeRow`. -/
def dupRowGroup (attributeId : String) (rowIndex : Nat) (g : AttributeGroup) :
    AttributeGroup :=
  { g with attributes :=
    (modifyFirst (fun attr => attr.id == attributeId)
      (dupRowInst rowIndex)
      g.attributes) }

/-- `handleDuplicateAttributeRow`. -/
def handleDuplicateAttributeRow (doc : Doc) (active : Option String)
    (attributeId : String) (rowIndex : Nat) : Doc :=
  match active with
  | none => doc
  | some gid =>
    modifyFirst (fun g => g.id == gid)
      (dupRowGroup attributeId rowIndex)
      doc

/-- `handleDeleteAttributeRow` (confirmed path): `splice(rowIndex, 1)`. -/
def handleDeleteAttributeRow (doc : Doc) (active : Option String)
    (attributeId : String) (rowIndex : Nat) (confirmed : Bool) : Doc :=
  match active with
  | none => doc
  | some gid =>
    if !confirmed then doc
    else
      modifyFirst (fun g => g.id == gid)
        (fun g => { g with attributes :=
          (modifyFirst (fun attr => attr.id == attributeId)
            (fun inst =>
              { inst with children := inst.children.eraseIdx rowIndex })
            g.attributes) })
        doc

/-- `handleDeleteAttributeInstance` (confirmed path): drop every instance
with the given id from the active group. -/
def handleDeleteAttributeInstance (doc : Doc) (active : Option String)
    (attributeId : String) (confirmed : Bool) : Doc :=
  match active with
  | none => doc
  | some gid =>
    if !confirmed then doc
    else
      modifyFirst (fun g => g.id == gid)
        (fun g => { g with attributes :=
          (g.attributes.filter (fun attr => !(attr.id == attributeId))) })
        doc

/-- The per-instance body of `handleUpdateFieldValue`: wholesale replacement
of a field's value when row and field indices are in range (no-op
otherwise). -/
def updFieldInst (rowIndex fieldIndex : Nat) (newValue : Value)
    (inst : AttributeInstance) : AttributeInstance :=
  match inst.children.get? rowIndex with
  | none => inst
  | some row =>
    match row.get? fieldIndex with
    | none => inst
    | some field =>
      { inst with children :=
        (inst.children.set rowIndex
          (row.set fieldIndex { field with value := newValue })) }

/-- The per-group body of `handleUpdateFieldValue`. -/
def updFieldGroup (attributeId : String) (rowIndex fieldIndex : Nat)
    (newValue : Value) (g : AttributeGroup) : AttributeGroup :=
  { g with attributes :=
    (modifyFirst (fun attr => attr.id == attributeId)
      (updFieldInst rowIndex fieldIndex newValue)
      g.attributes) }

/-- `handleUpdateFieldValue`. -/
def handleUpdateFieldValue (doc : Doc) (active : Option String)
    (attributeId : String) (rowIndex fieldIndex : Nat) (newValue : Value) : Doc :=
  match active with
  | none => doc
  | some gid =>
    modifyFirst (fun g => g.id == gid)
      (updFieldGroup attributeId rowIndex fieldIndex newValue)
      doc

/-- The checkbox mutation on a field value: coerce a non-array to `[]`, then
append the item when absent (`add = true`; duplicate id → error toast,
unchanged) or splice it out when present (`add = false`; missing id → error
toast, unchanged array). -/
def checkboxStep (v0 : Value) (item : MetaItem) (add : Bool) :
    List MetaItem × Option Notice :=
  let v := match v0 with
    | .arr l => l
    | _ => ([] : List MetaItem)
  let existingIndex := v.findIdx? (fun x => x.id == item.id)
  if add then
    match existingIndex with
    | none => (v ++ [item], none)
    | some _ => (v, some (.error "Already selected."))
  else
    match existingIndex with
    | some i => (v.eraseIdx i, none)
    | none => (v, some (.error "Item not found to remove."))

/-- The per-instance body of `handleUpdateCheckboxValue` (no-op when row or
field index is out of range). -/
def updCheckboxInst (rowIndex fieldIndex : Nat) (item : MetaItem) (add : Bool)
    (inst : AttributeInstance) : AttributeInstance × Option Notice :=
  match inst.children.get? rowIndex with
  | none => (inst, none)
  | some row =>
    match row.get? fieldIndex with
    | none => (inst, none)
    | some field =>
      let step := checkboxStep field.value item add
      ({ inst with children :=
        (inst.children.set rowIndex
          (row.set fieldIndex { field with value := .arr step.1 })) },
        step.2)

/-- The per-group body of `handleUpdateCheckboxValue`. -/
def updCheckboxGroup (attributeId : String) (rowIndex fieldIndex : Nat)
    (item : MetaItem) (add : Bool) (g : AttributeGroup) :
    AttributeGroup × Option Notice :=
  let r := mapFirstWith (fun attr => attr.id == attributeId)
    (updCheckboxInst rowIndex fieldIndex item add)
    g.attributes
  ({ g with attributes := r.1 }, r.2)

/-- `handleUpdateCheckboxValue`. -/
def handleUpdateCheckboxValue (doc : Doc) (active : Option String)
    (attributeId : String) (rowIndex fieldIndex : Nat) (item : MetaItem)
    (add : Bool) : Doc × Option Notice :=
  match active with
  | none => (doc, none)
  | some gid =>
    mapFirstWith (fun g => g.id == gid)
      (updCheckboxGroup attributeId rowIndex fieldIndex item add)
      doc

/-- Effect 2 of the component, run to a fixed point after a state update:
activate the first group when groups exist and none is active; clear the
active id when no groups remain; otherwise leave it alone. -/
def effect2Sync (groups : Doc) (active : Option String) : Option String :=
  match groups, active with
  | g :: _, none => some g.id
  | [], some _ => none
  | _, a => a

/-- `handleDeleteGroup` (confirmed path) followed by Effect 2.  Note the
source reads `groupSelected` from the render-time closure after queueing the
deletion, so the "first group" it re-activates is the first group of the
*pre-deletion* document. -/
def handleDeleteGroup (doc : Doc) (active : Option String) (gid : String)
    (confirmed : Bool) : Doc × Option String :=
  if !confirmed then (doc, active)
  else
    let doc' := eraseFirst (fun g => g.id == gid) doc
    let staleActive := match doc with
      | g :: _ => some g.id
      | [] => active
    (doc', effect2Sync doc' staleActive)

/-! ## Invariants -/

/-- A field value respects the checkbox invariant: when it is an array, no
two entries share an id. -/
def valueOk : Value → Bool
  | .arr l => nodupKeys MetaItem.id l
  | _ => true

/-- Every field of the row respects the checkbox invariant. -/
def rowValuesOk (r : Row) : Bool :=
  r.all (fun it => valueOk it.value)

/-- Every row of the instance respects the checkbox invariant. -/
def instValuesOk (a : AttributeInstance) : Bool :=
  a.children.all rowValuesOk

/-- Every instance of the group respects the checkbox invariant. -/
def groupValuesOk (g : AttributeGroup) : Bool :=
  g.attributes.all instValuesOk

/-- Every array-valued field in the document has pairwise-distinct entry
ids. -/
def checkboxInv (doc : Doc) : Bool :=
  doc.all groupValuesOk

/-- Attribute-instance ids are unique within every group. -/
def instIdsUnique (doc : Doc) : Bool :=
  doc.all (fun g => nodupKeys AttributeInstance.id g.attributes)

/-! ## Locators (observational access to a document) -/

/-- The row list of the first instance `attrId` of the first group `gid`. -/
def childrenAt (doc : Doc) (gid attrId : String) : Option (List Row) :=
  (doc.find? (fun g => g.id == gid)).bind (fun g =>
    (g.attributes.find? (fun a => a.id == attrId)).map (fun a => a.children))

/-- Row `ri` of instance `attrId` of group `gid`. -/
def rowAt (doc : Doc) (gid attrId : String) (ri : Nat) : Option Row :=
  (childrenAt doc gid attrId).bind (fun rs => rs.get? ri)

/-- Field `fi` of row `ri` of instance `attrId` of group `gid`. -/
def fieldAt (doc : Doc) (gid attrId : String) (ri fi : Nat) :
    Option AttributeItem :=
  (rowAt doc gid attrId ri).bind (fun r => r.get? fi)

/-- Whether a field value is an array (`Array.isArray(field.value)`). -/
def isArrValue : Value → Bool
  | .arr _ => true
  | _ => false

/-! ## Concrete fixtures (used by witness theorems) -/

/-- A bound metadata record. -/
def metaRed : MetaItem := ⟨"m1", "Red", "#ff0000"⟩

/-- A second bound metadata record with a different id. -/
def metaBlue : MetaItem := ⟨"m2", "Blue", "#0000ff"⟩

/-- A sample row with one checkbox field holding `[metaRed]`. -/
def sampleRow : Row := [⟨"f1", "Color", .arr [metaRed]⟩]

/-- A sample attribute instance with one row. -/
def sampleInst : AttributeInstance := ⟨"a1", "Variant", [sampleRow]⟩

/-- A sample group holding `sampleInst`. -/
def sampleGroupA : AttributeGroup := ⟨"g1", "Group One", [sampleInst]⟩

/-- A second, empty sample group. -/
def sampleGroupB : AttributeGroup := ⟨"g2", "Group Two", []⟩

/-- A sample template whose single field is checkbox-typed. -/
def sampleTemplate : AttrTemplate := ⟨"a2", "Material", [⟨"f2", "Fabric", "checkbox"⟩]⟩

/-! # Lemmas -/

/-! ## C1, C2, C4: dirty-tracking and the persistence gate -/

/-- C1: the document is Dirty exactly when the JSON serialization of the
current snapshot differs from that of the saved baseline: `hasChanges D D`
is `false`, and `hasChanges D E` is `true` precisely when the serializations
differ. -/
theorem C1_dirty_iff_serialization_differs (D E : Doc) :
    hasChanges D D = false ∧
    (hasChanges D E = true ↔ stringifyDoc D ≠ stringifyDoc E) := by
  refine ⟨?_, ?_⟩
  · simp [hasChanges]
  · simp [hasChanges, bne_iff_ne]

/-- C2: when the document is Dirty and the save call fails (the promise
rejects, or the response's `success` field is not `"success"`), the state —
both the in-memory snapshot and the baseline — is unchanged, the document
stays Dirty, and a re-issued save sends the identical payload. -/
theorem C2_save_failure_preserves_state (st : SaveState) (oid : String)
    (out : SaveOutcome)
    (hdirty : hasChanges st.groupSelected st.savedGroupData = true)
    (hfail : ∀ s, out = SaveOutcome.response s → (s == "success") = false) :
    (saveAttributeMeta st (some oid) out).1 = st ∧
    (saveAttributeMeta st (some oid) out).2 =
      some (stringifyDoc st.groupSelected) ∧
    hasChanges (saveAttributeMeta st (some oid) out).1.groupSelected
      (saveAttributeMeta st (some oid) out).1.savedGroupData = true ∧
    ∀ out2,
      (saveAttributeMeta (saveAttributeMeta st (some oid) out).1 (some oid) out2).2 =
        some (stringifyDoc st.groupSelected) := by
  have h1 : saveAttributeMeta st (some oid) out =
      (st, some (stringifyDoc st.groupSelected)) := by
    cases out with
    | thrown => simp [saveAttributeMeta, hdirty]
    | response s => simp [saveAttributeMeta, hdirty, hfail s rfl]
  refine ⟨by rw [h1], by rw [h1], by rw [h1]; exact hdirty, ?_⟩
  intro out2
  rw [h1]
  cases out2 with
  | thrown => simp [saveAttributeMeta, hdirty]
  | response s2 =>
    by_cases hs2 : (s2 == "success") = true
    · simp [saveAttributeMeta, hdirty, hs2]
    · have hs2f : (s2 == "success") = false := by simpa using hs2
      simp [saveAttributeMeta, hdirty, hs2f]

/-- C2 witness: a failing save on a concrete dirty document leaves the state
unchanged, reports the serialized payload, and keeps the document dirty. -/
theorem C2_save_failure_witness :
    (saveAttributeMeta ⟨[sampleGroupA], []⟩ (some "42") SaveOutcome.thrown).1 =
      ⟨[sampleGroupA], []⟩ ∧
    (saveAttributeMeta ⟨[sampleGroupA], []⟩ (some "42") SaveOutcome.thrown).2 =
      some (stringifyDoc [sampleGroupA]) ∧
    hasChanges
      (saveAttributeMeta ⟨[sampleGroupA], []⟩ (some "42") SaveOutcome.thrown).1.groupSelected
      (saveAttributeMeta ⟨[sampleGroupA], []⟩ (some "42") SaveOutcome.thrown).1.savedGroupData = true := by
  have h := C2_save_failure_preserves_state ⟨[sampleGroupA], []⟩ "42"
    SaveOutcome.thrown (by decide) (fun s hs => by cases hs)
  exact ⟨h.1, h.2.1, h.2.2.1⟩

/-- C4: a successful save replaces the baseline with exactly the snapshot
that was serialized and sent (not a re-fetched value), leaving the in-memory
snapshot untouched, so the document is immediately Clean. -/
theorem C4_save_success_rebaselines (st : SaveState) (oid : String)
    (hdirty : hasChanges st.groupSelected st.savedGroupData = true) :
    (saveAttributeMeta st (some oid) (SaveOutcome.response "success")).1.groupSelected =
      st.groupSelected ∧
    (saveAttributeMeta st (some oid) (SaveOutcome.response "success")).1.savedGroupData =
      st.groupSelected ∧
    (saveAttributeMeta st (some oid) (SaveOutcome.response "success")).2 =
      some (stringifyDoc st.groupSelected) ∧
    hasChanges
      (saveAttributeMeta st (some oid) (SaveOutcome.response "success")).1.groupSelected
      (saveAttributeMeta st (some oid) (SaveOutcome.response "success")).1.savedGroupData = false := by
  have h1 : saveAttributeMeta st (some oid) (SaveOutcome.response "success") =
      ({ groupSelected := st.groupSelected, savedGroupData := st.groupSelected },
        some (stringifyDoc st.groupSelected)) := by
    simp [saveAttributeMeta, hdirty]
  refine ⟨by rw [h1], by rw [h1], by rw [h1], ?_⟩
  rw [h1]
  simp [hasChanges]

/-- C4 witness: a successful save on a concrete dirty document re-baselines
to the sent snapshot and clears the dirty flag. -/
theorem C4_save_success_witness :
    (saveAttributeMeta ⟨[sampleGroupA], []⟩ (some "42") (SaveOutcome.response "success")).1.savedGroupData =
      [sampleGroupA] ∧
    hasChanges
      (saveAttributeMeta ⟨[sampleGroupA], []⟩ (some "42") (SaveOutcome.response "success")).1.groupSelected
      (saveAttributeMeta ⟨[sampleGroupA], []⟩ (some "42") (SaveOutcome.response "success")).1.savedGroupData = false := by
  have h := C4_save_success_rebaselines ⟨[sampleGroupA], []⟩ "42" (by decide)
  exact ⟨h.2.1, h.2.2.2⟩

/-! ## Encoding/decoding round trips -/

/-- Pointwise inversion lifts through `mapMOpt` over a `map`. -/
theorem mapMOpt_map_roundtrip {α β : Type} {f : α → β} {g : β → Option α}
    (h : ∀ a, g (f a) = some a) (l : List α) :
    mapMOpt g (l.map f) = some l := by
  induction l with
  | nil => rfl
  | cons x xs ih => simp [mapMOpt, h x, ih]

/-- Decoding inverts encoding on metadata records. -/
theorem decodeMeta_encodeMeta (m : MetaItem) :
    decodeMeta (encodeMeta m) = some m := rfl

/-- Decoding inverts encoding on field values. -/
theorem decodeValue_encodeValue (v : Value) :
    decodeValue (encodeValue v) = some v := by
  cases v with
  | str s => rfl
  | obj m => rfl
  | arr l =>
    simp [encodeValue, decodeValue, mapMOpt_map_roundtrip decodeMeta_encodeMeta]

/-- Decoding inverts encoding on fields. -/
theorem decodeItem_encodeItem (it : AttributeItem) :
    decodeItem (encodeItem it) = some it := by
  cases it with
  | mk i t v =>
    simp [encodeItem, decodeItem, jlookup, decodeValue_encodeValue]

/-- Decoding inverts encoding on rows. -/
theorem decodeRow_encodeRow (r : Row) :
    decodeRow (encodeRow r) = some r := by
  simp [encodeRow, decodeRow, mapMOpt_map_roundtrip decodeItem_encodeItem]

/-- Decoding inverts encoding on attribute instances. -/
theorem decodeInstance_encodeInstance (a : AttributeInstance) :
    decodeInstance (encodeInstance a) = some a := by
  cases a with
  | mk i t cs =>
    simp [encodeInstance, decodeInstance, jlookup,
      mapMOpt_map_roundtrip decodeRow_encodeRow]

/-- Decoding inverts encoding on groups. -/
theorem decodeGroup_encodeGroup (g : AttributeGroup) :
    decodeGroup (encodeGroup g) = some g := by
  cases g with
  | mk i t xs =>
    simp [encodeGroup, decodeGroup, jlookup,
      mapMOpt_map_roundtrip decodeInstance_encodeInstance]

/-- Decoding inverts encoding on documents. -/
theorem decodeDoc_encodeDoc (d : Doc) :
    decodeDoc (encodeDoc d) = some d := by
  simp [encodeDoc, decodeDoc, mapMOpt_map_roundtrip decodeGroup_encodeGroup]

/-- The `JSON.parse(JSON.stringify(row))` deep copy is (structurally) the
identity on well-typed rows. -/
theorem deepCopyRow_eq (r : Row) : deepCopyRow r = r := by
  simp [deepCopyRow, decodeRow_encodeRow]

/-- An encoded group always carries an `attributes` key. -/
theorem jsonFirstHasAttributes_encodeDoc (g : AttributeGroup) (gs : List AttributeGroup) :
    jsonFirstHasAttributes (encodeDoc (g :: gs)) = true := rfl

/-! ## C5, C6: load-time parse and legacy migration -/

/-- C5: the parse of the persisted blob satisfies the claimed case analysis:
absent/empty blob → `[]`; invalid JSON → `[]` with a user-visible load
failure (and no exception, the function being total); a parsed value that is
not an array → `[]`; an empty array → `[]`; a non-empty array whose first
element has an `attributes` key → used as-is; a non-empty array whose first
element lacks `attributes` → wrapped into one group titled "Default Group"
with the freshly generated id, holding the parsed array unchanged as
`attributes`. -/
theorem C5_parse_case_analysis (gen : String) :
    (migrateOrderData none gen = (Json.arr [], false)) ∧
    (migrateOrderData (some none) gen = (Json.arr [], true)) ∧
    (∀ j, jsonIsArray j = false →
      migrateOrderData (some (some j)) gen = (Json.arr [], false)) ∧
    (migrateOrderData (some (some (Json.arr []))) gen = (Json.arr [], false)) ∧
    (∀ x xs, (jlookup "attributes" x).isSome = true →
      migrateOrderData (some (some (Json.arr (x :: xs)))) gen =
        (Json.arr (x :: xs), false)) ∧
    (∀ x xs, (jlookup "attributes" x).isSome = false →
      migrateOrderData (some (some (Json.arr (x :: xs)))) gen =
        (Json.arr [Json.obj [("id", Json.str gen),
          ("title", Json.str "Default Group"),
          ("attributes", Json.arr (x :: xs))]], false)) := by
  refine ⟨rfl, rfl, ?_, rfl, ?_, ?_⟩
  · intro j hj
    simp [migrateOrderData, hj]
  · intro x xs hx
    simp [migrateOrderData, jsonIsArray, jsonLength, jsonFirstHasAttributes, hx]
  · intro x xs hx
    simp [migrateOrderData, jsonIsArray, jsonLength, jsonFirstHasAttributes, hx]

/-- C5 witness: the case analysis evaluated at concrete blobs — a non-array
parse result, a current-shape document, and a legacy flat array. -/
theorem C5_parse_case_analysis_witness :
    (migrateOrderData (some (some (Json.str "oops"))) "fresh" =
      (Json.arr [], false)) ∧
    (migrateOrderData (some (some (Json.arr [Json.obj [("attributes", Json.arr [])]]))) "fresh" =
      (Json.arr [Json.obj [("attributes", Json.arr [])]], false)) ∧
    (migrateOrderData (some (some (Json.arr [Json.obj [("id", Json.str "a1")]]))) "fresh" =
      (Json.arr [Json.obj [("id", Json.str "fresh"),
        ("title", Json.str "Default Group"),
        ("attributes", Json.arr [Json.obj [("id", Json.str "a1")]])]], false)) := by
  have h := C5_parse_case_analysis "fresh"
  exact ⟨h.2.2.1 (Json.str "oops") rfl,
    h.2.2.2.2.1 (Json.obj [("attributes", Json.arr [])]) [] rfl,
    h.2.2.2.2.2 (Json.obj [("id", Json.str "a1")]) [] rfl⟩

/-- C6: parsing the serialization of any current-shape document yields the
document again: the migration uses the encoded document as-is with no load
failure, and decoding returns the exact original, for the empty document and
for any non-empty document alike. -/
theorem C6_parse_serialize_roundtrip (D : Doc) (gen : String) :
    migrateOrderData (some (some (encodeDoc D))) gen = (encodeDoc D, false) ∧
    decodeDoc (encodeDoc D) = some D := by
  refine ⟨?_, decodeDoc_encodeDoc D⟩
  cases D with
  | nil => rfl
  | cons g gs =>
    simp [migrateOrderData, jsonIsArray, jsonLength, encodeDoc,
      jsonFirstHasAttributes, jlookup, encodeGroup]

/-! ## List helper lemmas -/

/-- When `p` finds `x` first, `mapFirstWith` emits `f x`'s message. -/
theorem mapFirstWith_snd {α β : Type} (p : α → Bool) (f : α → α × Option β) :
    ∀ {l : List α} {x : α}, l.find? p = some x →
      (mapFirstWith p f l).2 = (f x).2 := by
  intro l
  induction l with
  | nil => intro x h; cases h
  | cons y ys ih =>
    intro x h
    by_cases hy : p y = true
    · rw [List.find?_cons_of_pos _ hy] at h
      cases h
      simp [mapFirstWith, hy]
    · rw [List.find?_cons_of_neg _ hy] at h
      simp [mapFirstWith, hy, ih h]

/-- When `p` finds `x` first and the rewrite keeps `p`, the rewritten element
is what `find?` sees afterwards. -/
theorem mapFirstWith_fst_find? {α β : Type} (p : α → Bool) (f : α → α × Option β) :
    ∀ {l : List α} {x : α}, l.find? p = some x → p (f x).1 = true →
      (mapFirstWith p f l).1.find? p = some (f x).1 := by
  intro l
  induction l with
  | nil => intro x h; cases h
  | cons y ys ih =>
    intro x h hid
    by_cases hy : p y = true
    · rw [List.find?_cons_of_pos _ hy] at h
      cases h
      simp [mapFirstWith, hy, List.find?_cons_of_pos _ hid]
    · rw [List.find?_cons_of_neg _ hy] at h
      simp [mapFirstWith, hy, List.find?_cons_of_neg _ hy, ih h hid]

/-- A rewrite that fixes the found element leaves the list unchanged. -/
theorem mapFirstWith_fst_fix {α β : Type} (p : α → Bool) (f : α → α × Option β) :
    ∀ {l : List α} {x : α}, l.find? p = some x → (f x).1 = x →
      (mapFirstWith p f l).1 = l := by
  intro l
  induction l with
  | nil => intro x h; cases h
  | cons y ys ih =>
    intro x h hfx
    by_cases hy : p y = true
    · rw [List.find?_cons_of_pos _ hy] at h
      cases h
      simp [mapFirstWith, hy, hfx]
    · rw [List.find?_cons_of_neg _ hy] at h
      simp [mapFirstWith, hy, ih h hfx]

/-- When `p` finds nothing, `mapFirstWith` is the identity with no message. -/
theorem mapFirstWith_none {α β : Type} (p : α → Bool) (f : α → α × Option β) :
    ∀ {l : List α}, l.find? p = none → mapFirstWith p f l = (l, none) := by
  intro l
  induction l with
  | nil => intro _; rfl
  | cons y ys ih =>
    intro h
    by_cases hy : p y = true
    · rw [List.find?_cons_of_pos _ hy] at h; cases h
    · rw [List.find?_cons_of_neg _ hy] at h
      simp [mapFirstWith, hy, ih h]

/-- `mapFirstWith` preserves an `all` invariant that `f` respects. -/
theorem all_mapFirstWith {α β : Type} (p : α → Bool) (f : α → α × Option β)
    (q : α → Bool) (hf : ∀ x, q x = true → q (f x).1 = true) :
    ∀ {l : List α}, l.all q = true → (mapFirstWith p f l).1.all q = true := by
  intro l
  induction l with
  | nil => intro _; rfl
  | cons y ys ih =>
    intro h
    rw [List.all_cons, Bool.and_eq_true] at h
    by_cases hy : p y = true
    · simp [mapFirstWith, hy, hf y h.1, h.2]
    · simp [mapFirstWith, hy, ih h.2, h.1]

/-- When `p` finds `x` first and the rewrite keeps `p`, the rewritten element
is what `find?` sees after `modifyFirst`. -/
theorem modifyFirst_find? {α : Type} (p : α → Bool) (f : α → α) :
    ∀ {l : List α} {x : α}, l.find? p = some x → p (f x) = true →
      (modifyFirst p f l).find? p = some (f x) := by
  intro l
  induction l with
  | nil => intro x h; cases h
  | cons y ys ih =>
    intro x h hid
    by_cases hy : p y = true
    · rw [List.find?_cons_of_pos _ hy] at h
      cases h
      simp [modifyFirst, hy, List.find?_cons_of_pos _ hid]
    · rw [List.find?_cons_of_neg _ hy] at h
      simp [modifyFirst, hy, List.find?_cons_of_neg _ hy, ih h hid]

/-- When `p` finds nothing, `modifyFirst` is the identity. -/
theorem modifyFirst_none {α : Type} (p : α → Bool) (f : α → α) :
    ∀ {l : List α}, l.find? p = none → modifyFirst p f l = l := by
  intro l
  induction l with
  | nil => intro _; rfl
  | cons y ys ih =>
    intro h
    by_cases hy : p y = true
    · rw [List.find?_cons_of_pos _ hy] at h; cases h
    · rw [List.find?_cons_of_neg _ hy] at h
      simp [modifyFirst, hy, ih h]

/-- `modifyFirst` preserves an `all` invariant that `f` respects. -/
theorem all_modifyFirst {α : Type} (p : α → Bool) (f : α → α)
    (q : α → Bool) (hf : ∀ x, q x = true → q (f x) = true) :
    ∀ {l : List α}, l.all q = true → (modifyFirst p f l).all q = true := by
  intro l
  induction l with
  | nil => intro _; rfl
  | cons y ys ih =>
    intro h
    rw [List.all_cons, Bool.and_eq_true] at h
    by_cases hy : p y = true
    · simp [modifyFirst, hy, hf y h.1, h.2]
    · simp [modifyFirst, hy, ih h.2, h.1]

/-- `insertAt` always grows the list by one (JS splice clamps the index). -/
theorem length_insertAt {α : Type} :
    ∀ (n : Nat) (x : α) (l : List α), (insertAt n x l).length = l.length + 1
  | 0, _, _ => rfl
  | _ + 1, _, [] => rfl
  | n + 1, x, y :: l => by simp [insertAt, length_insertAt n x l]

/-- Positions before an in-range insertion point are untouched. -/
theorem get?_insertAt_lt {α : Type} :
    ∀ {n j : Nat} (x : α) (l : List α), j < n → n ≤ l.length →
      (insertAt n x l).get? j = l.get? j
  | 0, j, _, _, h, _ => absurd h (Nat.not_lt_zero j)
  | n + 1, _, x, [], _, hn => absurd hn (by simp)
  | _ + 1, 0, x, y :: l, _, _ => rfl
  | n + 1, j + 1, x, y :: l, h, hn => by
    simp only [insertAt, List.get?_cons_succ]
    exact get?_insertAt_lt x l (Nat.lt_of_succ_lt_succ h)
      (Nat.le_of_succ_le_succ hn)

/-- The inserted element sits at the insertion point (when in range). -/
theorem get?_insertAt_self {α : Type} :
    ∀ {n : Nat} (x : α) {l : List α}, n ≤ l.length →
      (insertAt n x l).get? n = some x
  | 0, x, [], _ => rfl
  | 0, x, _ :: _, _ => rfl
  | n + 1, x, [], h => absurd h (by simp)
  | n + 1, x, y :: l, h => by
    simp only [insertAt, List.get?_cons_succ]
    exact get?_insertAt_self x (Nat.le_of_succ_le_succ h)

/-- Positions at or past the insertion point shift up by one. -/
theorem get?_insertAt_shift {α : Type} :
    ∀ {n j : Nat} (x : α) (l : List α), n ≤ j →
      (insertAt n x l).get? (j + 1) = l.get? j
  | 0, j, x, l, _ => by simp [insertAt]
  | n + 1, 0, x, l, h => absurd h (by simp)
  | n + 1, j + 1, x, [], _ => by simp [insertAt]
  | n + 1, j + 1, x, y :: l, h => by
    simp only [insertAt, List.get?_cons_succ]
    exact get?_insertAt_shift x l (Nat.le_of_succ_le_succ h)

/-- `insertAt` preserves an `all` invariant when the new element satisfies
it. -/
theorem all_insertAt {α : Type} (q : α → Bool) :
    ∀ {n : Nat} {x : α} {l : List α}, q x = true → l.all q = true →
      (insertAt n x l).all q = true
  | 0, x, l, hx, h => by simp [insertAt, hx, h]
  | _ + 1, x, [], hx, _ => by simp [insertAt, hx]
  | n + 1, x, y :: l, hx, h => by
    rw [List.all_cons, Bool.and_eq_true] at h
    simpa [insertAt, h.1] using all_insertAt q hx h.2

/-- Writing the element already stored at an index is a no-op. -/
theorem set_get?_self {α : Type} :
    ∀ {l : List α} {i : Nat} {x : α}, l.get? i = some x → l.set i x = l := by
  intro l
  induction l with
  | nil => intro i x h; cases h
  | cons y ys ih =>
    intro i x h
    cases i with
    | zero => cases h; rfl
    | succ i => simpa [List.set] using ih h

/-- Reading back a just-written index (in range). -/
theorem get?_set_self {α : Type} :
    ∀ {l : List α} {i : Nat} (x : α), i < l.length →
      (l.set i x).get? i = some x := by
  intro l
  induction l with
  | nil => intro i x h; cases h
  | cons y ys ih =>
    intro i x h
    cases i with
    | zero => rfl
    | succ i => simpa [List.set] using ih x (Nat.lt_of_succ_lt_succ h)

/-- Reading any other index after a write. -/
theorem get?_set_other {α : Type} :
    ∀ {l : List α} {i j : Nat} (x : α), i ≠ j →
      (l.set i x).get? j = l.get? j := by
  intro l
  induction l with
  | nil => intro i j x _; rfl
  | cons y ys ih =>
    intro i j x hne
    cases i with
    | zero =>
      cases j with
      | zero => exact absurd rfl hne
      | succ j => rfl
    | succ i =>
      cases j with
      | zero => rfl
      | succ j =>
        simpa [List.set] using ih x (fun hc => hne (by rw [hc]))

/-- `set` preserves an `all` invariant when the new element satisfies it. -/
theorem all_set {α : Type} (q : α → Bool) :
    ∀ {l : List α} {i : Nat} {x : α}, q x = true → l.all q = true →
      (l.set i x).all q = true := by
  intro l
  induction l with
  | nil => intro i x _ _; rfl
  | cons y ys ih =>
    intro i x hx h
    rw [List.all_cons, Bool.and_eq_true] at h
    cases i with
    | zero => simp [List.set, hx, h.2]
    | succ i => simp [List.set, h.1, ih hx h.2]

/-- A member read via `get?` satisfies an `all` invariant. -/
theorem all_get? {α : Type} (q : α → Bool) {l : List α} {i : Nat} {x : α}
    (h : l.all q = true) (hg : l.get? i = some x) : q x = true :=
  (List.all_eq_true.mp h) x (List.get?_mem hg)

/-- `eraseIdx` preserves an `all` invariant. -/
theorem all_eraseIdx {α : Type} (q : α → Bool) :
    ∀ {l : List α} (i : Nat), l.all q = true → (l.eraseIdx i).all q = true := by
  intro l
  induction l with
  | nil => intro i _; rfl
  | cons y ys ih =>
    intro i h
    rw [List.all_cons, Bool.and_eq_true] at h
    cases i with
    | zero => exact h.2
    | succ i => simp [List.eraseIdx, h.1, ih i h.2]

/-- Any element surviving `eraseIdx` was in the original list. -/
theorem any_of_any_eraseIdx {α : Type} (q : α → Bool) :
    ∀ {l : List α} (i : Nat), (l.eraseIdx i).any q = true → l.any q = true := by
  intro l
  induction l with
  | nil => intro i h; cases h
  | cons y ys ih =>
    intro i h
    cases i with
    | zero =>
      have h' : ys.any q = true := h
      rw [List.any_cons, Bool.or_eq_true]
      exact Or.inr h'
    | succ i =>
      rw [List.eraseIdx, List.any_cons, Bool.or_eq_true] at h
      cases h with
      | inl hy => simp [hy]
      | inr hr => simp [ih i hr]

/-- `eraseFirst` preserves an `all` invariant. -/
theorem all_eraseFirst {α : Type} (q p : α → Bool) :
    ∀ {l : List α}, l.all q = true → (eraseFirst p l).all q = true := by
  intro l
  induction l with
  | nil => intro _; rfl
  | cons y ys ih =>
    intro h
    rw [List.all_cons, Bool.and_eq_true] at h
    by_cases hy : p y = true
    · simp [eraseFirst, hy, h.2]
    · simp [eraseFirst, hy, h.1, ih h.2]

/-- Key-uniqueness survives removing any index. -/
theorem nodupKeys_eraseIdx {α : Type} (key : α → String) :
    ∀ {l : List α} (i : Nat), nodupKeys key l = true →
      nodupKeys key (l.eraseIdx i) = true := by
  intro l
  induction l with
  | nil => intro i _; rfl
  | cons y ys ih =>
    intro i h
    rw [nodupKeys, Bool.and_eq_true] at h
    cases i with
    | zero => exact h.2
    | succ i =>
      rw [List.eraseIdx, nodupKeys, Bool.and_eq_true]
      refine ⟨?_, ih i h.2⟩
      have := h.1
      by_cases hc : ((ys.eraseIdx i).any fun z => key z == key y) = true
      · exact absurd (any_of_any_eraseIdx _ i hc) (by simpa using this)
      · simpa using hc

/-- Key-uniqueness survives appending an element whose key is fresh. -/
theorem nodupKeys_append_single {α : Type} (key : α → String) :
    ∀ {l : List α} {x : α}, nodupKeys key l = true →
      (l.all fun y => !(key y == key x)) = true →
      nodupKeys key (l ++ [x]) = true := by
  intro l
  induction l with
  | nil => intro x _ _; simp [nodupKeys]
  | cons z zs ih =>
    intro x h hx
    rw [nodupKeys, Bool.and_eq_true] at h
    rw [List.all_cons, Bool.and_eq_true] at hx
    rw [List.cons_append, nodupKeys, Bool.and_eq_true]
    refine ⟨?_, ih h.2 hx.2⟩
    rw [List.any_append]
    have h1 : (zs.any fun y => key y == key z) = false := by
      simpa using h.1
    have h2 : (key x == key z) = false := by
      have : (key z == key x) = false := by simpa using hx.1
      rw [beq_eq_false_iff_ne] at this ⊢
      exact fun hc => this hc.symm
    simp [h1, h2]

/-- A failed `findIndex` means no element matches. -/
theorem findIdx?_none_all {α : Type} (p : α → Bool) :
    ∀ {l : List α} {i : Nat}, l.findIdx? p i = none →
      (l.all fun y => !(p y)) = true := by
  intro l
  induction l with
  | nil => intro i _; rfl
  | cons y ys ih =>
    intro i h
    rw [List.findIdx?_cons] at h
    by_cases hy : p y = true
    · rw [if_pos hy] at h; cases h
    · rw [if_neg hy] at h
      have hyf : p y = false := by simpa using hy
      simp [hyf, ih h]

/-! ## Handler navigation lemmas -/

/-- `updFieldInst` on a located row and field. -/
theorem updFieldInst_found (ri fi : Nat) (v : Value) {a : AttributeInstance}
    {row : Row} {field : AttributeItem}
    (hrow : a.children.get? ri = some row) (hfield : row.get? fi = some field) :
    updFieldInst ri fi v a =
      { a with children :=
        (a.children.set ri (row.set fi { field with value := v })) } := by
  simp only [updFieldInst, hrow, hfield]

/-- `updFieldInst` never changes the instance id. -/
theorem updFieldInst_id (ri fi : Nat) (v : Value) (a : AttributeInstance) :
    (updFieldInst ri fi v a).id = a.id := by
  unfold updFieldInst
  split
  · rfl
  · split <;> rfl

/-- `updCheckboxInst` on a located row and field. -/
theorem updCheckboxInst_found (ri fi : Nat) (item : MetaItem) (add : Bool)
    {a : AttributeInstance} {row : Row} {field : AttributeItem}
    (hrow : a.children.get? ri = some row) (hfield : row.get? fi = some field) :
    updCheckboxInst ri fi item add a =
      ({ a with children :=
          (a.children.set ri (row.set fi
            { field with value := .arr (checkboxStep field.value item add).1 })) },
        (checkboxStep field.value item add).2) := by
  simp only [updCheckboxInst, hrow, hfield]

/-- `dupRowInst` on a located row (the deep copy being the identity). -/
theorem dupRowInst_found (ri : Nat) {a : AttributeInstance} {row : Row}
    (hrow : a.children.get? ri = some row) :
    dupRowInst ri a =
      { a with children := (insertAt (ri + 1) row a.children) } := by
  simp only [dupRowInst, hrow, deepCopyRow_eq]

/-- Full characterization of `handleUpdateCheckboxValue` when the group,
instance, row and field are all located: the emitted notice and the stored
field value are those of `checkboxStep`. -/
theorem checkbox_located (doc : Doc) (gid attrId : String) (ri fi : Nat)
    (item : MetaItem) (add : Bool) {g : AttributeGroup} {a : AttributeInstance}
    {row : Row} {field : AttributeItem}
    (hg : doc.find? (fun x => x.id == gid) = some g)
    (ha : g.attributes.find? (fun x => x.id == attrId) = some a)
    (hrow : a.children.get? ri = some row)
    (hfield : row.get? fi = some field) :
    (handleUpdateCheckboxValue doc (some gid) attrId ri fi item add).2 =
      (checkboxStep field.value item add).2 ∧
    fieldAt (handleUpdateCheckboxValue doc (some gid) attrId ri fi item add).1
      gid attrId ri fi =
      some { field with value := Value.arr (checkboxStep field.value item add).1 } := by
  have hpg := List.find?_some hg
  have hpa := List.find?_some ha
  obtain ⟨hrb, -⟩ := List.get?_eq_some.mp hrow
  obtain ⟨hfb, -⟩ := List.get?_eq_some.mp hfield
  have hinst := updCheckboxInst_found ri fi item add hrow hfield
  constructor
  · show (mapFirstWith (fun x => x.id == gid)
      (updCheckboxGroup attrId ri fi item add) doc).2 = _
    rw [mapFirstWith_snd _ _ hg]
    show (mapFirstWith (fun x => x.id == attrId)
      (updCheckboxInst ri fi item add) g.attributes).2 = _
    rw [mapFirstWith_snd _ _ ha, hinst]
  · have h1 : (handleUpdateCheckboxValue doc (some gid) attrId ri fi item add).1.find?
        (fun x => x.id == gid) = some ((updCheckboxGroup attrId ri fi item add g).1) := by
      show (mapFirstWith (fun x => x.id == gid)
        (updCheckboxGroup attrId ri fi item add) doc).1.find? _ = _
      exact mapFirstWith_fst_find? _ _ hg hpg
    have h2 : ((updCheckboxGroup attrId ri fi item add g).1).attributes.find?
        (fun x => x.id == attrId) = some ((updCheckboxInst ri fi item add a).1) := by
      show (mapFirstWith (fun x => x.id == attrId)
        (updCheckboxInst ri fi item add) g.attributes).1.find? _ = _
      refine mapFirstWith_fst_find? _ _ ha ?_
      rw [hinst]
      exact hpa
    have h3 : ((updCheckboxInst ri fi item add a).1).children.get? ri =
        some (row.set fi
          { field with value := Value.arr (checkboxStep field.value item add).1 }) := by
      rw [hinst]
      exact get?_set_self _ hrb
    have h4 : (row.set fi
        { field with value := Value.arr (checkboxStep field.value item add).1 }).get? fi =
        some { field with value := Value.arr (checkboxStep field.value item add).1 } :=
      get?_set_self _ hfb
    rw [List.get?_eq_getElem?] at h3 h4
    simp [fieldAt, rowAt, childrenAt, h1, h2, h3, h4]

/-! ## C3: active group after deleting a group (code bug) -/

/-- C3 (evaluation at the failing input): with document `[g1, g2]` and `g1`
both first and active, a confirmed `deleteGroup g1` leaves `[g2]` but keeps
`activeGroupId = "g1"` — the id of the deleted group, not of the first
remaining group `g2` — because the component re-activates
`groupSelected[0].id` of the stale pre-deletion render state, and the sync
effect does not fire while an id is set. -/
theorem C3_deleteGroup_stale_active_eval :
    handleDeleteGroup [sampleGroupA, sampleGroupB] (some "g1") "g1" true =
      ([sampleGroupB], some "g1") ∧
    (([sampleGroupB].map (fun g => g.id)).contains "g1") = false := by
  exact ⟨by decide, by decide⟩

/-! ## C7: row duplication -/

/-- C7: duplicating row `i` of an `n`-row instance yields `n + 1` rows with
the structurally equal copy at `i + 1`, rows up to `i` untouched, rows after
`i` shifted one place (relative order kept), and — the deep copy sharing no
state with the original — a subsequent field edit targeting either of the
two rows leaves the other row unchanged. -/
theorem C7_duplicateRow (doc : Doc) (gid attrId : String) (i : Nat)
    (g : AttributeGroup) (a : AttributeInstance) (row : Row)
    (hg : doc.find? (fun x => x.id == gid) = some g)
    (ha : g.attributes.find? (fun x => x.id == attrId) = some a)
    (hrow : a.children.get? i = some row) :
    childrenAt (handleDuplicateAttributeRow doc (some gid) attrId i) gid attrId =
      some (insertAt (i + 1) row a.children) ∧
    (insertAt (i + 1) row a.children).length = a.children.length + 1 ∧
    (insertAt (i + 1) row a.children).get? (i + 1) = some row ∧
    (∀ j, j ≤ i →
      (insertAt (i + 1) row a.children).get? j = a.children.get? j) ∧
    (∀ j, i < j →
      (insertAt (i + 1) row a.children).get? (j + 1) = a.children.get? j) ∧
    (∀ fi v field, row.get? fi = some field →
      rowAt (handleUpdateFieldValue
          (handleDuplicateAttributeRow doc (some gid) attrId i)
          (some gid) attrId (i + 1) fi v) gid attrId i = some row) ∧
    (∀ fi v field, row.get? fi = some field →
      rowAt (handleUpdateFieldValue
          (handleDuplicateAttributeRow doc (some gid) attrId i)
          (some gid) attrId i fi v) gid attrId (i + 1) = some row) := by
  have hpg := List.find?_some hg
  have hpa := List.find?_some ha
  obtain ⟨hrb, -⟩ := List.get?_eq_some.mp hrow
  have hi1 : i + 1 ≤ a.children.length := hrb
  have hinst : dupRowInst i a =
      { a with children := (insertAt (i + 1) row a.children) } :=
    dupRowInst_found i hrow
  have h1 : (handleDuplicateAttributeRow doc (some gid) attrId i).find?
      (fun x => x.id == gid) = some (dupRowGroup attrId i g) := by
    show (modifyFirst (fun x => x.id == gid) (dupRowGroup attrId i) doc).find? _ = _
    exact modifyFirst_find? _ _ hg hpg
  have h2 : (dupRowGroup attrId i g).attributes.find?
      (fun x => x.id == attrId) = some (dupRowInst i a) := by
    show (modifyFirst (fun x => x.id == attrId) (dupRowInst i) g.attributes).find? _ = _
    refine modifyFirst_find? _ _ ha ?_
    rw [hinst]
    exact hpa
  have hchild : childrenAt (handleDuplicateAttributeRow doc (some gid) attrId i)
      gid attrId = some (insertAt (i + 1) row a.children) := by
    simp [childrenAt, h1, h2, hinst]
  have hcopy : (dupRowInst i a).children.get? (i + 1) = some row := by
    rw [hinst]
    exact get?_insertAt_self _ hi1
  have horig : (dupRowInst i a).children.get? i = some row := by
    rw [hinst]
    rw [get?_insertAt_lt _ _ (Nat.lt_succ_self i) hi1]
    exact hrow
  refine ⟨hchild, length_insertAt _ _ _, get?_insertAt_self _ hi1, ?_, ?_, ?_, ?_⟩
  · intro j hj
    exact get?_insertAt_lt _ _ (Nat.lt_succ_of_le hj) hi1
  · intro j hj
    exact get?_insertAt_shift _ _ hj
  · intro fi v field hfield
    have hu1 : (handleUpdateFieldValue
        (handleDuplicateAttributeRow doc (some gid) attrId i)
        (some gid) attrId (i + 1) fi v).find? (fun x => x.id == gid) =
        some (updFieldGroup attrId (i + 1) fi v (dupRowGroup attrId i g)) := by
      show (modifyFirst (fun x => x.id == gid)
        (updFieldGroup attrId (i + 1) fi v)
        (handleDuplicateAttributeRow doc (some gid) attrId i)).find? _ = _
      exact modifyFirst_find? _ _ h1 hpg
    have hu2 : (updFieldGroup attrId (i + 1) fi v (dupRowGroup attrId i g)).attributes.find?
        (fun x => x.id == attrId) =
        some (updFieldInst (i + 1) fi v (dupRowInst i a)) := by
      show (modifyFirst (fun x => x.id == attrId)
        (updFieldInst (i + 1) fi v) (dupRowGroup attrId i g).attributes).find? _ = _
      refine modifyFirst_find? _ _ h2 ?_
      rw [updFieldInst_id, hinst]
      exact hpa
    have hufound := updFieldInst_found (i + 1) fi v hcopy hfield
    have hread : ((updFieldInst (i + 1) fi v (dupRowInst i a)).children).get? i =
        some row := by
      rw [hufound]
      show ((dupRowInst i a).children.set (i + 1) _).get? i = some row
      rw [get?_set_other _ (by omega)]
      exact horig
    rw [List.get?_eq_getElem?] at hread
    simp [rowAt, childrenAt, hu1, hu2, hread]
  · intro fi v field hfield
    have hu1 : (handleUpdateFieldValue
        (handleDuplicateAttributeRow doc (some gid) attrId i)
        (some gid) attrId i fi v).find? (fun x => x.id == gid) =
        some (updFieldGroup attrId i fi v (dupRowGroup attrId i g)) := by
      show (modifyFirst (fun x => x.id == gid)
        (updFieldGroup attrId i fi v)
        (handleDuplicateAttributeRow doc (some gid) attrId i)).find? _ = _
      exact modifyFirst_find? _ _ h1 hpg
    have hu2 : (updFieldGroup attrId i fi v (dupRowGroup attrId i g)).attributes.find?
        (fun x => x.id == attrId) =
        some (updFieldInst i fi v (dupRowInst i a)) := by
      show (modifyFirst (fun x => x.id == attrId)
        (updFieldInst i fi v) (dupRowGroup attrId i g).attributes).find? _ = _
      refine modifyFirst_find? _ _ h2 ?_
      rw [updFieldInst_id, hinst]
      exact hpa
    have hufound := updFieldInst_found i fi v horig hfield
    have hread : ((updFieldInst i fi v (dupRowInst i a)).children).get? (i + 1) =
        some row := by
      rw [hufound]
      show ((dupRowInst i a).children.set i _).get? (i + 1) = some row
      rw [get?_set_other _ (by omega)]
      exact hcopy
    rw [List.get?_eq_getElem?] at hread
    simp [rowAt, childrenAt, hu1, hu2, hread]

/-- C7 witness: duplicating row 0 of the sample document puts a structurally
equal copy at index 1, and editing a field of the copy leaves the original
row unchanged. -/
theorem C7_duplicateRow_witness :
    childrenAt (handleDuplicateAttributeRow [sampleGroupA] (some "g1") "a1" 0)
      "g1" "a1" = some (insertAt 1 sampleRow [sampleRow]) ∧
    rowAt (handleUpdateFieldValue
        (handleDuplicateAttributeRow [sampleGroupA] (some "g1") "a1" 0)
        (some "g1") "a1" 1 0 (Value.str "edited")) "g1" "a1" 0 =
      some sampleRow := by
  have h := C7_duplicateRow [sampleGroupA] "g1" "a1" 0 sampleGroupA sampleInst
    sampleRow (by decide) (by decide) (by decide)
  exact ⟨h.1, h.2.2.2.2.2.1 0 (Value.str "edited") ⟨"f1", "Color", .arr [metaRed]⟩ (by decide)⟩

/-! ## C10: checkbox operations on a non-array stored value -/

/-- C10: when add/remove targets an existing field whose stored value is not
an array, the value is first replaced by `[]`; an add then stores exactly
`[item]` with no notice (silently discarding the prior value), and a remove
stores `[]` and fires the not-found error notice. -/
theorem C10_checkbox_on_non_array (doc : Doc) (gid attrId : String)
    (ri fi : Nat) (item : MetaItem) (g : AttributeGroup) (a : AttributeInstance)
    (row : Row) (field : AttributeItem)
    (hg : doc.find? (fun x => x.id == gid) = some g)
    (ha : g.attributes.find? (fun x => x.id == attrId) = some a)
    (hrow : a.children.get? ri = some row)
    (hfield : row.get? fi = some field)
    (hv : isArrValue field.value = false) :
    fieldAt (handleUpdateCheckboxValue doc (some gid) attrId ri fi item true).1
      gid attrId ri fi = some { field with value := Value.arr [item] } ∧
    (handleUpdateCheckboxValue doc (some gid) attrId ri fi item true).2 = none ∧
    fieldAt (handleUpdateCheckboxValue doc (some gid) attrId ri fi item false).1
      gid attrId ri fi = some { field with value := Value.arr [] } ∧
    (handleUpdateCheckboxValue doc (some gid) attrId ri fi item false).2 =
      some (Notice.error "Item not found to remove.") := by
  have hadd : checkboxStep field.value item true = ([item], none) := by
    cases hval : field.value with
    | str s => simp [checkboxStep, List.findIdx?]
    | obj m => simp [checkboxStep, List.findIdx?]
    | arr l => rw [hval] at hv; simp [isArrValue] at hv
  have hrem : checkboxStep field.value item false =
      ([], some (.error "Item not found to remove.")) := by
    cases hval : field.value with
    | str s => simp [checkboxStep, List.findIdx?]
    | obj m => simp [checkboxStep, List.findIdx?]
    | arr l => rw [hval] at hv; simp [isArrValue] at hv
  have hlocAdd := checkbox_located doc gid attrId ri fi item true hg ha hrow hfield
  have hlocRem := checkbox_located doc gid attrId ri fi item false hg ha hrow hfield
  rw [hadd] at hlocAdd
  rw [hrem] at hlocRem
  exact ⟨hlocAdd.2, hlocAdd.1, hlocRem.2, hlocRem.1⟩

/-- C10 witness: on a concrete field storing a plain string, an add stores
exactly the one new item with no notice, and a remove stores `[]` with the
not-found notice. -/
theorem C10_checkbox_on_non_array_witness :
    fieldAt (handleUpdateCheckboxValue
        [⟨"g1", "Group One", [⟨"a1", "Variant", [[⟨"f1", "Size", .str "XL"⟩]]⟩]⟩]
        (some "g1") "a1" 0 0 metaRed true).1 "g1" "a1" 0 0 =
      some ⟨"f1", "Size", Value.arr [metaRed]⟩ ∧
    (handleUpdateCheckboxValue
        [⟨"g1", "Group One", [⟨"a1", "Variant", [[⟨"f1", "Size", .str "XL"⟩]]⟩]⟩]
        (some "g1") "a1" 0 0 metaRed false).2 =
      some (Notice.error "Item not found to remove.") := by
  have h := C10_checkbox_on_non_array
    [⟨"g1", "Group One", [⟨"a1", "Variant", [[⟨"f1", "Size", .str "XL"⟩]]⟩]⟩]
    "g1" "a1" 0 0 metaRed
    ⟨"g1", "Group One", [⟨"a1", "Variant", [[⟨"f1", "Size", .str "XL"⟩]]⟩]⟩
    ⟨"a1", "Variant", [[⟨"f1", "Size", .str "XL"⟩]]⟩
    [⟨"f1", "Size", .str "XL"⟩] ⟨"f1", "Size", .str "XL"⟩
    (by decide) (by decide) (by decide) (by decide) (by decide)
  exact ⟨h.1, h.2.2.2⟩

/-! ## C9: instance-id uniqueness within a group -/

/-- A failed `some`/`any` means every element fails the predicate. -/
theorem all_not_of_any_false {α : Type} (p : α → Bool) :
    ∀ {l : List α}, l.any p = false → (l.all fun y => !(p y)) = true := by
  intro l
  induction l with
  | nil => intro _; rfl
  | cons y ys ih =>
    intro h
    rw [List.any_cons] at h
    by_cases hy : p y = true
    · rw [hy] at h; simp at h
    · have hyf : p y = false := by simpa using hy
      rw [hyf, Bool.false_or] at h
      simp [hyf, ih h]

/-- C9: attribute-instance ids stay unique within every group under
`selectAttributeForGroup`; when the template id is absent from the active
group a new instance `{id: templateId, title: template.title, children: []}`
is appended with no notice; when it is present the document is unchanged and
an info notice — not an error — fires. -/
theorem C9_selectAttribute_unique (doc : Doc) (gid : String) (t : AttrTemplate) :
    (instIdsUnique doc = true →
      instIdsUnique (handleSelectAttributeForGroup doc (some gid) t).1 = true) ∧
    (∀ g, doc.find? (fun x => x.id == gid) = some g →
      (g.attributes.any fun attr => attr.id == t.id) = false →
      ((handleSelectAttributeForGroup doc (some gid) t).1.find? (fun x => x.id == gid) =
        some { g with attributes := g.attributes ++ [⟨t.id, t.title, []⟩] } ∧
      (handleSelectAttributeForGroup doc (some gid) t).2 = none)) ∧
    (∀ g, doc.find? (fun x => x.id == gid) = some g →
      (g.attributes.any fun attr => attr.id == t.id) = true →
      ((handleSelectAttributeForGroup doc (some gid) t).1 = doc ∧
      (handleSelectAttributeForGroup doc (some gid) t).2 =
        some (Notice.info ("Attribute \"" ++ t.title ++
          "\" already added to this group.")))) := by
  refine ⟨?_, ?_, ?_⟩
  · intro hinv
    show (mapFirstWith (fun x => x.id == gid) (selectAttrGroupBody t) doc).1.all
      (fun g => nodupKeys AttributeInstance.id g.attributes) = true
    refine all_mapFirstWith _ _ _ ?_ hinv
    intro g hq
    unfold selectAttrGroupBody
    by_cases hc : (g.attributes.any fun attr => attr.id == t.id) = true
    · simp only [hc, Bool.not_true, Bool.false_eq_true, if_false]
      exact hq
    · have hcf : (g.attributes.any fun attr => attr.id == t.id) = false := by
        simpa using hc
      simp only [hcf, Bool.not_false, if_true]
      exact nodupKeys_append_single _ hq (all_not_of_any_false _ hcf)
  · intro g hg hany
    have hpg := List.find?_some hg
    have hbody : selectAttrGroupBody t g =
        ({ g with attributes := g.attributes ++ [⟨t.id, t.title, []⟩] }, none) := by
      simp [selectAttrGroupBody, hany]
    constructor
    · have hfind := mapFirstWith_fst_find? (fun x => x.id == gid)
        (selectAttrGroupBody t) hg (by rw [hbody]; exact hpg)
      rw [hbody] at hfind
      exact hfind
    · show (mapFirstWith (fun x => x.id == gid) (selectAttrGroupBody t) doc).2 = none
      rw [mapFirstWith_snd _ _ hg, hbody]
  · intro g hg hany
    have hbody : selectAttrGroupBody t g =
        (g, some (.info ("Attribute \"" ++ t.title ++
          "\" already added to this group."))) := by
      simp [selectAttrGroupBody, hany]
    constructor
    · exact mapFirstWith_fst_fix _ _ hg (by rw [hbody])
    · show (mapFirstWith (fun x => x.id == gid) (selectAttrGroupBody t) doc).2 = _
      rw [mapFirstWith_snd _ _ hg, hbody]

/-- C9 witness: on the sample document, adding a fresh template appends the
new instance; re-adding the already-present template leaves the document
unchanged and fires the info notice. -/
theorem C9_selectAttribute_unique_witness :
    (handleSelectAttributeForGroup [sampleGroupA] (some "g1") sampleTemplate).1.find?
      (fun x => x.id == "g1") =
      some { sampleGroupA with attributes :=
        sampleGroupA.attributes ++ [⟨"a2", "Material", []⟩] } ∧
    (handleSelectAttributeForGroup [sampleGroupA] (some "g1") ⟨"a1", "Variant", []⟩).1 =
      [sampleGroupA] ∧
    (handleSelectAttributeForGroup [sampleGroupA] (some "g1") ⟨"a1", "Variant", []⟩).2 =
      some (Notice.info "Attribute \"Variant\" already added to this group.") := by
  have h := C9_selectAttribute_unique [sampleGroupA] "g1" sampleTemplate
  have h2 := C9_selectAttribute_unique [sampleGroupA] "g1" ⟨"a1", "Variant", []⟩
  refine ⟨?_, ?_, ?_⟩
  · exact (h.2.1 sampleGroupA (by decide) (by decide)).1
  · exact (h2.2.2 sampleGroupA (by decide) (by decide)).1
  · have hmsg := (h2.2.2 sampleGroupA (by decide) (by decide)).2
    simpa using hmsg

/-! ## C8: checkbox id-uniqueness invariant -/

/-- Two equal projections make a pair equal to the literal pair. -/
theorem prod_eq {α β : Type} {p : α × β} {a : α} {b : β}
    (h1 : p.1 = a) (h2 : p.2 = b) : p = (a, b) := by
  cases p
  cases h1
  cases h2
  rfl

/-- A successful `any` makes `findIndex` succeed. -/
theorem findIdx?_isSome_of_any {α : Type} (p : α → Bool) :
    ∀ {l : List α} {i : Nat}, l.any p = true → (l.findIdx? p i).isSome = true := by
  intro l
  induction l with
  | nil => intro i h; cases h
  | cons y ys ih =>
    intro i h
    rw [List.findIdx?_cons]
    by_cases hy : p y = true
    · simp [hy]
    · have hyf : p y = false := by simpa using hy
      rw [List.any_cons, hyf, Bool.false_or] at h
      simp [hyf, ih h]

/-- `filter` preserves an `all` invariant. -/
theorem all_filter {α : Type} (q p : α → Bool) {l : List α}
    (h : l.all q = true) : (l.filter p).all q = true := by
  rw [List.all_eq_true] at h ⊢
  intro x hx
  exact h x (List.mem_of_mem_filter hx)

/-- The checkbox mutation keeps the stored array free of duplicate ids. -/
theorem checkboxStep_nodup (v0 : Value) (item : MetaItem) (add : Bool)
    (hv : valueOk v0 = true) :
    nodupKeys MetaItem.id (checkboxStep v0 item add).1 = true := by
  cases v0 with
  | str s => cases add <;> simp [checkboxStep, List.findIdx?, nodupKeys]
  | obj m => cases add <;> simp [checkboxStep, List.findIdx?, nodupKeys]
  | arr l =>
    have hl : nodupKeys MetaItem.id l = true := hv
    cases hidx : l.findIdx? (fun x => x.id == item.id) with
    | none =>
      cases add with
      | true =>
        simp only [checkboxStep, hidx]
        exact nodupKeys_append_single _ hl (findIdx?_none_all _ hidx)
      | false =>
        simp only [checkboxStep, hidx]
        exact hl
    | some k =>
      cases add with
      | true =>
        simp only [checkboxStep, hidx]
        exact hl
      | false =>
        simp only [checkboxStep, hidx]
        exact nodupKeys_eraseIdx _ k hl

/-- The per-instance checkbox mutation preserves the invariant. -/
theorem updCheckboxInst_instOk (ri fi : Nat) (item : MetaItem) (add : Bool)
    (a : AttributeInstance) (h : instValuesOk a = true) :
    instValuesOk (updCheckboxInst ri fi item add a).1 = true := by
  unfold updCheckboxInst
  split
  · exact h
  · next row hrow =>
    split
    · exact h
    · next field hfield =>
      unfold instValuesOk at h ⊢
      refine all_set _ ?_ h
      have hrowOk : rowValuesOk row = true := all_get? _ h hrow
      unfold rowValuesOk at hrowOk ⊢
      refine all_set _ ?_ hrowOk
      have hfOk := all_get? (fun it => valueOk it.value) hrowOk hfield
      exact checkboxStep_nodup _ _ _ hfOk

/-- The per-instance scalar field write preserves the invariant when the
written value does. -/
theorem updFieldInst_instOk (ri fi : Nat) (v : Value) (a : AttributeInstance)
    (hv : valueOk v = true) (h : instValuesOk a = true) :
    instValuesOk (updFieldInst ri fi v a) = true := by
  unfold updFieldInst
  split
  · exact h
  · next row hrow =>
    split
    · exact h
    · next field hfield =>
      unfold instValuesOk at h ⊢
      refine all_set _ ?_ h
      have hrowOk : rowValuesOk row = true := all_get? _ h hrow
      unfold rowValuesOk at hrowOk ⊢
      refine all_set _ ?_ hrowOk
      exact hv

/-- The per-instance row duplication preserves the invariant. -/
theorem dupRowInst_instOk (ri : Nat) (a : AttributeInstance)
    (h : instValuesOk a = true) : instValuesOk (dupRowInst ri a) = true := by
  unfold dupRowInst
  split
  · exact h
  · next row hrow =>
    unfold instValuesOk at h ⊢
    rw [deepCopyRow_eq]
    exact all_insertAt _ (all_get? _ h hrow) h

/-- A freshly built row (checkbox fields seeded `[]`, others `""`) satisfies
the invariant. -/
theorem newRow_rowValuesOk (cs : List FieldDef) :
    rowValuesOk (cs.map (fun c =>
      (⟨c.id, c.title, if c.type == "checkbox" then .arr [] else .str ""⟩ :
        AttributeItem))) = true := by
  induction cs with
  | nil => rfl
  | cons c cs ih =>
    unfold rowValuesOk at ih ⊢
    rw [List.map_cons, List.all_cons, Bool.and_eq_true]
    refine ⟨?_, ih⟩
    by_cases hc : (c.type == "checkbox") = true
    · simp [valueOk, hc, nodupKeys]
    · have hcf : (c.type == "checkbox") = false := by simpa using hc
      simp [valueOk, hcf]

/-- Adding an item whose id is already stored is a no-op on the document,
with only the duplicate error notice emitted. -/
theorem checkbox_dup_noop (doc : Doc) (gid attrId : String) (ri fi : Nat)
    (item : MetaItem) {g : AttributeGroup} {a : AttributeInstance} {row : Row}
    {field : AttributeItem} {l : List MetaItem}
    (hg : doc.find? (fun x => x.id == gid) = some g)
    (ha : g.attributes.find? (fun x => x.id == attrId) = some a)
    (hrow : a.children.get? ri = some row)
    (hfield : row.get? fi = some field)
    (hv : field.value = Value.arr l)
    (hany : (l.any fun x => x.id == item.id) = true) :
    handleUpdateCheckboxValue doc (some gid) attrId ri fi item true =
      (doc, some (Notice.error "Already selected.")) := by
  have hsome : (l.findIdx? (fun x => x.id == item.id)).isSome = true :=
    findIdx?_isSome_of_any _ hany
  obtain ⟨k, hk⟩ := Option.isSome_iff_exists.mp hsome
  have hstep1 : (checkboxStep field.value item true).1 = l := by
    rw [hv]
    simp [checkboxStep, hk]
  have hstep2 : (checkboxStep field.value item true).2 =
      some (Notice.error "Already selected.") := by
    rw [hv]
    simp [checkboxStep, hk]
  have hinstEq : updCheckboxInst ri fi item true a =
      (a, some (Notice.error "Already selected.")) := by
    rw [updCheckboxInst_found ri fi item true hrow hfield, hstep1, hstep2]
    have hfeq : ({ field with value := Value.arr l } : AttributeItem) = field := by
      rw [← hv]
    rw [hfeq, set_get?_self hfield, set_get?_self hrow]
  have hgroupFst : (updCheckboxGroup attrId ri fi item true g).1 = g := by
    show ({ g with attributes := (mapFirstWith (fun x => x.id == attrId)
      (updCheckboxInst ri fi item true) g.attributes).1 } : AttributeGroup) = g
    rw [mapFirstWith_fst_fix _ _ ha (by rw [hinstEq])]
  have hgroupSnd : (updCheckboxGroup attrId ri fi item true g).2 =
      some (Notice.error "Already selected.") := by
    show (mapFirstWith (fun x => x.id == attrId)
      (updCheckboxInst ri fi item true) g.attributes).2 = _
    rw [mapFirstWith_snd _ _ ha, hinstEq]
  show mapFirstWith (fun x => x.id == gid)
    (updCheckboxGroup attrId ri fi item true) doc = _
  refine prod_eq ?_ ?_
  · exact mapFirstWith_fst_fix _ _ hg hgroupFst
  · rw [mapFirstWith_snd _ _ hg, hgroupSnd]

/-- C8: on an invariant-respecting document, every Edit Engine operation
keeps every checkbox value array free of duplicate ids (the scalar field
write under the precondition that the written value itself is
well-formed), and adding an item whose id is already present leaves the
document unchanged, emitting only the duplicate error notice. -/
theorem C8_checkbox_no_duplicates (doc : Doc) (hinv : checkboxInv doc = true) :
    (∀ act attrId ri fi item add,
      checkboxInv (handleUpdateCheckboxValue doc act attrId ri fi item add).1 = true) ∧
    (∀ act attrId ri fi v, valueOk v = true →
      checkboxInv (handleUpdateFieldValue doc act attrId ri fi v) = true) ∧
    (∀ act t, checkboxInv (handleSelectAttributeForGroup doc act t).1 = true) ∧
    (∀ act atts attrId,
      checkboxInv (handleAddAttributeRow doc act atts attrId).1 = true) ∧
    (∀ act attrId ri,
      checkboxInv (handleDuplicateAttributeRow doc act attrId ri) = true) ∧
    (∀ act attrId ri c,
      checkboxInv (handleDeleteAttributeRow doc act attrId ri c) = true) ∧
    (∀ act attrId c,
      checkboxInv (handleDeleteAttributeInstance doc act attrId c) = true) ∧
    (∀ act name gen, checkboxInv (handleAddGroup doc act name gen).1 = true) ∧
    (∀ gid name, checkboxInv (handleRenameGroup doc gid name) = true) ∧
    (∀ act gid c, checkboxInv (handleDeleteGroup doc act gid c).1 = true) ∧
    (∀ gid attrId ri fi item g a row field l,
      doc.find? (fun x => x.id == gid) = some g →
      g.attributes.find? (fun x => x.id == attrId) = some a →
      a.children.get? ri = some row →
      row.get? fi = some field →
      field.value = Value.arr l →
      (l.any fun x => x.id == item.id) = true →
      handleUpdateCheckboxValue doc (some gid) attrId ri fi item true =
        (doc, some (Notice.error "Already selected."))) := by
  refine ⟨?_, ?_, ?_, ?_, ?_, ?_, ?_, ?_, ?_, ?_, ?_⟩
  · intro act attrId ri fi item add
    cases act with
    | none => exact hinv
    | some gid =>
      show (mapFirstWith (fun x => x.id == gid)
        (updCheckboxGroup attrId ri fi item add) doc).1.all groupValuesOk = true
      refine all_mapFirstWith _ _ _ ?_ hinv
      intro g hq
      show (mapFirstWith (fun x => x.id == attrId)
        (updCheckboxInst ri fi item add) g.attributes).1.all instValuesOk = true
      refine all_mapFirstWith _ _ _ ?_ hq
      intro a hA
      exact updCheckboxInst_instOk ri fi item add a hA
  · intro act attrId ri fi v hv
    cases act with
    | none => exact hinv
    | some gid =>
      show (modifyFirst (fun x => x.id == gid)
        (updFieldGroup attrId ri fi v) doc).all groupValuesOk = true
      refine all_modifyFirst _ _ _ ?_ hinv
      intro g hq
      show (modifyFirst (fun x => x.id == attrId)
        (updFieldInst ri fi v) g.attributes).all instValuesOk = true
      refine all_modifyFirst _ _ _ ?_ hq
      intro a hA
      exact updFieldInst_instOk ri fi v a hv hA
  · intro act t
    cases act with
    | none => exact hinv
    | some gid =>
      show (mapFirstWith (fun x => x.id == gid)
        (selectAttrGroupBody t) doc).1.all groupValuesOk = true
      refine all_mapFirstWith _ _ _ ?_ hinv
      intro g hq
      unfold selectAttrGroupBody
      by_cases hc : (g.attributes.any fun attr => attr.id == t.id) = true
      · simp only [hc, Bool.not_true, Bool.false_eq_true, if_false]
        exact hq
      · have hcf : (g.attributes.any fun attr => attr.id == t.id) = false := by
          simpa using hc
        simp only [hcf, Bool.not_false, if_true]
        show (g.attributes ++ [(⟨t.id, t.title, []⟩ : AttributeInstance)]).all
          instValuesOk = true
        rw [List.all_append]
        have hq2 : g.attributes.all instValuesOk = true := hq
        rw [hq2, Bool.true_and]
        rfl
  · intro act atts attrId
    unfold handleAddAttributeRow
    split
    · exact hinv
    · split
      · exact hinv
      · next attDef heq =>
        refine all_modifyFirst _ _ _ ?_ hinv
        intro g hq
        refine all_modifyFirst _ _ _ ?_ hq
        intro a hA
        show (a.children ++ [attDef.children.map (fun c =>
          (⟨c.id, c.title,
            if c.type == "checkbox" then .arr [] else .str ""⟩ :
              AttributeItem))]).all rowValuesOk = true
        rw [List.all_append]
        have hA2 : a.children.all rowValuesOk = true := hA
        rw [hA2, Bool.true_and]
        simp only [List.all_cons, List.all_nil, Bool.and_true]
        exact newRow_rowValuesOk attDef.children
  · intro act attrId ri
    cases act with
    | none => exact hinv
    | some gid =>
      show (modifyFirst (fun x => x.id == gid)
        (dupRowGroup attrId ri) doc).all groupValuesOk = true
      refine all_modifyFirst _ _ _ ?_ hinv
      intro g hq
      show (modifyFirst (fun x => x.id == attrId)
        (dupRowInst ri) g.attributes).all instValuesOk = true
      refine all_modifyFirst _ _ _ ?_ hq
      intro a hA
      exact dupRowInst_instOk ri a hA
  · intro act attrId ri c
    cases act with
    | none => exact hinv
    | some gid =>
      cases c with
      | false => exact hinv
      | true =>
        show (modifyFirst (fun g => g.id == gid)
          (fun g => { g with attributes :=
            (modifyFirst (fun attr => attr.id == attrId)
              (fun inst => { inst with children := inst.children.eraseIdx ri })
              g.attributes) })
          doc).all groupValuesOk = true
        refine all_modifyFirst _ _ _ ?_ hinv
        intro g hq
        show (modifyFirst (fun attr => attr.id == attrId)
          (fun inst => { inst with children := inst.children.eraseIdx ri })
          g.attributes).all instValuesOk = true
        refine all_modifyFirst _ _ _ ?_ hq
        intro a hA
        exact all_eraseIdx _ ri hA
  · intro act attrId c
    cases act with
    | none => exact hinv
    | some gid =>
      cases c with
      | false => exact hinv
      | true =>
        show (modifyFirst (fun g => g.id == gid)
          (fun g => { g with attributes :=
            (g.attributes.filter (fun attr => !(attr.id == attrId))) })
          doc).all groupValuesOk = true
        refine all_modifyFirst _ _ _ ?_ hinv
        intro g hq
        exact all_filter _ _ hq
  · intro act name gen
    by_cases hb : (name.trim == "") = true
    · simp only [handleAddGroup, hb, if_true]
      exact hinv
    · have hbf : (name.trim == "") = false := by simpa using hb
      simp only [handleAddGroup, hbf, Bool.false_eq_true, if_false]
      show (doc ++ [(⟨gen, name.trim, []⟩ : AttributeGroup)]).all
        groupValuesOk = true
      rw [List.all_append]
      have hinv2 : doc.all groupValuesOk = true := hinv
      rw [hinv2, Bool.true_and]
      rfl
  · intro gid name
    by_cases hb : (name == "") = true
    · simp only [handleRenameGroup, hb, if_true]
      exact hinv
    · have hbf : (name == "") = false := by simpa using hb
      simp only [handleRenameGroup, hbf, Bool.false_eq_true, if_false]
      refine all_modifyFirst _ _ _ ?_ hinv
      intro g hq
      exact hq
  · intro act gid c
    cases c with
    | false => exact hinv
    | true =>
      show (eraseFirst (fun g => g.id == gid) doc).all groupValuesOk = true
      exact all_eraseFirst _ _ hinv
  · intro gid attrId ri fi item g a row field l hg ha hrow hfield hv hany
    exact checkbox_dup_noop doc gid attrId ri fi item hg ha hrow hfield hv hany

/-- C8 witness: on the sample document (one checkbox array `[metaRed]`),
adding a fresh item keeps the invariant, and re-adding `metaRed` is a no-op
with only the duplicate error notice. -/
theorem C8_checkbox_no_duplicates_witness :
    checkboxInv (handleUpdateCheckboxValue [sampleGroupA] (some "g1") "a1"
      0 0 metaBlue true).1 = true ∧
    handleUpdateCheckboxValue [sampleGroupA] (some "g1") "a1" 0 0 metaRed true =
      ([sampleGroupA], some (Notice.error "Already selected.")) := by
  have h := C8_checkbox_no_duplicates [sampleGroupA] (by decide)
  refine ⟨h.1 (some "g1") "a1" 0 0 metaBlue true, ?_⟩
  exact h.2.2.2.2.2.2.2.2.2.2 "g1" "a1" 0 0 metaRed sampleGroupA sampleInst
    sampleRow ⟨"f1", "Color", .arr [metaRed]⟩ [metaRed]
    (by decide) (by decide) (by decide) (by decide) (by decide) (by decide)

end NPlatform
